import Mathlib

/-!
Verification of the document-extraction engine of `bl-transformer`:
invoice page accumulation, two-stage invoice line matching, packing-list
grouping, document-type classification and batch orchestration, embedded
shallowly from the Python sources under `src/`.
-/

namespace BLT

/-- Python ASCII whitespace class (the characters matched by `str.strip()`
and by the regex class `\s` on the ASCII range). -/
def isPySpace (c : Char) : Bool :=
  c = ' ' || c = '\t' || c = '\n' || c = '\r' || c = '\x0b' || c = '\x0c'

/-- Strip leading and trailing whitespace from a character list
(model of Python `str.strip()`). -/
def stripChars (l : List Char) : List Char :=
  ((l.dropWhile isPySpace).reverse.dropWhile isPySpace).reverse

/-- Model of Python `str.strip()`. -/
def pyStrip (s : String) : String :=
  String.mk (stripChars s.data)

/-- Substring test: `needle` occurs contiguously in the list
(model of Python `needle in hay`). -/
def listContains (needle : List Char) : List Char → Bool
  | [] => needle.isPrefixOf []
  | c :: t => needle.isPrefixOf (c :: t) || listContains needle t

/-- Model of Python `needle in hay` on strings. -/
def strContains (hay needle : String) : Bool :=
  listContains needle.data hay.data

/-- Accumulate a run of decimal digits, allowing single underscores
between digits as Python `int()` does. -/
def pyDigitsAux : Nat → List Char → Option Nat
  | acc, [] => some acc
  | acc, '_' :: c :: t =>
    if c.isDigit then pyDigitsAux (acc * 10 + (c.toNat - 48)) t else none
  | _, '_' :: [] => none
  | acc, c :: t =>
    if c.isDigit then pyDigitsAux (acc * 10 + (c.toNat - 48)) t else none

/-- Parse a nonempty digit run (with optional internal underscores). -/
def pyDigits : List Char → Option Nat
  | [] => none
  | '_' :: _ => none
  | c :: t => if c.isDigit then pyDigitsAux (c.toNat - 48) t else none

/-- Model of Python `int(s)` on decimal strings: surrounding whitespace is
ignored, an optional sign precedes the digits, failure is `none`
(Python raises `ValueError`). -/
def pyInt (s : String) : Option Int :=
  match stripChars s.data with
  | '+' :: t => (pyDigits t).map (fun n => (n : Int))
  | '-' :: t => (pyDigits t).map (fun n => -(n : Int))
  | t => (pyDigits t).map (fun n => (n : Int))

/-- Rendering of an optional string inside a Python f-string:
`None` renders as the text `None`. -/
def pyStr : Option String → String
  | none => "None"
  | some s => s

/-- Split a character list at every occurrence of `sep`, keeping empty
segments (model of Python `str.split(sep)` with a one-character
separator). -/
def splitOnChar (sep : Char) : List Char → List (List Char)
  | [] => [[]]
  | c :: t =>
    if c = sep then [] :: splitOnChar sep t
    else
      match splitOnChar sep t with
      | [] => [[c]]
      | h :: r => (c :: h) :: r

/-- Model of Python `page_text.split('\n')`. -/
def pySplitLines (s : String) : List String :=
  (splitOnChar '\n' s.data).map String.mk

/-- Model of Python `str.lower()` on ASCII file names. -/
def pyLower (s : String) : String :=
  String.mk (s.data.map Char.toLower)

/-- Model of Python `str.upper()` on ASCII page text. -/
def pyUpper (s : String) : String :=
  String.mk (s.data.map Char.toUpper)

/-! ## A small regular-expression engine

The invoice extractor of `src/invoice/patterns.py` uses Python `re`
patterns whose every quantifier ranges over a single-character class.  We
embed them as an abstract syntax tree and a backtracking matcher that
returns all matches in Python `re` priority order (greedy longest-first,
lazy shortest-first); `re.search` takes the first match of the leftmost
matching position. -/

/-- Captured groups: group index paired with the captured characters. -/
abbrev Caps := List (Nat × List Char)

/-- Regular-expression syntax used by the invoice patterns. -/
inductive RE where
  | cls (p : Char → Bool)
  | lit (cs : List Char)
  | plusG (p : Char → Bool)
  | plusL (p : Char → Bool)
  | starG (p : Char → Bool)
  | repE (p : Char → Bool) (n : Nat)
  | grp (i : Nat) (r : RE)
  | seq (a b : RE)
  | eosP

/-- All ways a pattern can match a prefix of `s`, in `re` backtracking
priority order; each result is the captured groups together with the
remaining suffix.  `eosP` is Python `$` without `re.MULTILINE`: it matches
at the end of the input or just before a final newline. -/
def mruns : RE → List Char → List (Caps × List Char)
  | .cls p, [] => (fun _ => []) p
  | .cls p, c :: t => if p c then [([], t)] else []
  | .lit cs, s => if cs.isPrefixOf s then [([], s.drop cs.length)] else []
  | .plusG p, s =>
    (List.range (s.takeWhile p).length).map
      (fun j => ([], s.drop ((s.takeWhile p).length - j)))
  | .plusL p, s =>
    (List.range (s.takeWhile p).length).map (fun j => ([], s.drop (j + 1)))
  | .starG p, s =>
    (List.range ((s.takeWhile p).length + 1)).map
      (fun j => ([], s.drop ((s.takeWhile p).length - j)))
  | .repE p n, s =>
    if n ≤ (s.takeWhile p).length then [([], s.drop n)] else []
  | .grp i r, s =>
    (mruns r s).map (fun cr => (cr.1 ++ [(i, s.take (s.length - cr.2.length))], cr.2))
  | .seq a b, s =>
    (mruns a s).flatMap (fun cr => (mruns b cr.2).map (fun dr => (cr.1 ++ dr.1, dr.2)))
  | .eosP, s => if s = [] ∨ s = ['\n'] then [([], s)] else []

/-- The preferred match of a pattern at one fixed position. -/
def searchPos (r : RE) (s : List Char) : Option Caps :=
  (mruns r s).head?.map (fun cr => cr.1)

/-- Model of `re.search` without `re.MULTILINE`: try every position from
the left, taking the first position with a match. -/
def reSearch (r : RE) : List Char → Option Caps
  | [] => searchPos r []
  | c :: t =>
    match searchPos r (c :: t) with
    | some cs => some cs
    | none => reSearch r t

/-- Positions after a newline, for a `^`-anchored `re.MULTILINE` search. -/
def goNL (r : RE) : List Char → Option Caps
  | [] => none
  | c :: t =>
    if c = '\n' then
      match searchPos r t with
      | some cs => some cs
      | none => goNL r t
    else goNL r t

/-- Model of `re.search` of a `^`-anchored pattern compiled with
`re.MULTILINE`: the match may start at the beginning of the input or
right after any newline; leftmost such position wins. -/
def reSearchNL (r : RE) (s : List Char) : Option Caps :=
  match searchPos r s with
  | some cs => some cs
  | none => goNL r s

/-- Model of `match.group(i)`. -/
def getGrp (caps : Caps) (i : Nat) : Option String :=
  (caps.find? (fun kv => kv.1 == i)).map (fun kv => String.mk kv.2)

/-! ## Invoice patterns (`src/invoice/patterns.py`) -/

/-- The class `[\d,\.]`. -/
def isNumDotComma (c : Char) : Bool :=
  c.isDigit || c = ',' || c = '.'

/-- The class `[\d,]`. -/
def isDigitComma (c : Char) : Bool :=
  c.isDigit || c = ','

/-- The class `.` (any character but a newline). -/
def isDotAny (c : Char) : Bool :=
  c != '\n'

/-- The class `\S`. -/
def isNonSpace (c : Char) : Bool :=
  !(isPySpace c)

/-- `InvoicePatterns.item_step1`:
`^(\d{13})\s+(.+?)\s+([\d,\.]+)\s+G` with `re.MULTILINE`. -/
def item_step1 : RE :=
  .seq (.grp 1 (.repE Char.isDigit 13))
    (.seq (.plusG isPySpace)
      (.seq (.grp 2 (.plusL isDotAny))
        (.seq (.plusG isPySpace)
          (.seq (.grp 3 (.plusG isNumDotComma))
            (.seq (.plusG isPySpace) (.lit ['G']))))))

/-- `InvoicePatterns.item_step2`:
`G\s+(\d+[\d,]*)\s+([\d,\.]+)\s+([\d,\.]+)\s+(\d+)\s+([A-Z]{2})\s+(\S+)$`. -/
def item_step2 : RE :=
  .seq (.lit ['G'])
    (.seq (.plusG isPySpace)
      (.seq (.grp 1 (.seq (.plusG Char.isDigit) (.starG isDigitComma)))
        (.seq (.plusG isPySpace)
          (.seq (.grp 2 (.plusG isNumDotComma))
            (.seq (.plusG isPySpace)
              (.seq (.grp 3 (.plusG isNumDotComma))
                (.seq (.plusG isPySpace)
                  (.seq (.grp 4 (.plusG Char.isDigit))
                    (.seq (.plusG isPySpace)
                      (.seq (.grp 5 (.repE Char.isUpper 2))
                        (.seq (.plusG isPySpace)
                          (.seq (.grp 6 (.plusG isNonSpace)) .eosP))))))))))))

/-- `InvoicePatterns.ean_line` used via `.match`: the line starts with
thirteen digits. -/
def ean_line_match (s : List Char) : Bool :=
  (s.take 13).length == 13 && (s.take 13).all Char.isDigit

/-- `re.search` of a literal followed by a captured nonempty digit run,
modelling `Shipment Number: (\d+)` and `TOTAL QUANTITY (\d+)`. -/
def searchLitDigits (lit : List Char) : List Char → Option String
  | [] => none
  | c :: t =>
    if lit.isPrefixOf (c :: t) then
      let ds := ((c :: t).drop lit.length).takeWhile Char.isDigit
      if ds.isEmpty then searchLitDigits lit t else some (String.mk ds)
    else searchLitDigits lit t

/-- `InvoicePatterns.shipment_number` applied by `re.search`. -/
def shipment_number_search (s : String) : Option String :=
  searchLitDigits "Shipment Number: ".data s.data

/-- `InvoicePatterns.total_quantity` applied by `re.search`. -/
def total_quantity_search (s : String) : Option String :=
  searchLitDigits "TOTAL QUANTITY ".data s.data

/-- `InvoicePatterns.terms_of_sale`. -/
def terms_of_sale : String := "GENERAL TERMS OF SALE"

/-! ## Invoice data model (`src/invoice/models.py`) -/

/-- `InvoiceItem`: every field starts unset (`None`). -/
structure InvoiceItem where
  ean_number : Option String := none
  description : Option String := none
  quantity : Option String := none
  unit_price : Option String := none
  total_price_usd : Option String := none
  country : Option String := none
  product_code : Option String := none
deriving DecidableEq, Repr

/-- `InvoiceData`: metadata fields plus the EAN-keyed item mapping.  The
Python `dict` is modelled as an insertion-ordered association list. -/
structure InvoiceData where
  edi_number : Option String := none
  delivery_number : Option String := none
  invoice_number : Option String := none
  invoice_date : Option String := none
  shipment_number : Option String := none
  total_quantity : Option String := none
  items : List (String × InvoiceItem) := []
deriving DecidableEq, Repr

/-- The metadata dictionary built by `InvoiceParser._extract_metadata`. -/
structure Metadata where
  edi_number : Option String := none
  delivery_number : Option String := none
  invoice_number : Option String := none
  invoice_date : Option String := none
  shipment_number : Option String := none
  total_quantity : Option String := none
deriving DecidableEq, Repr

/-- A fresh `InvoiceData()`. -/
def emptyInvoice : InvoiceData := {}

/-- Python `dict` assignment `d[k] = v`: replace in place if the key is
present, otherwise append, preserving insertion order. -/
def dictInsert {α : Type} (d : List (String × α)) (k : String) (v : α) :
    List (String × α) :=
  if (d.find? (fun kv => kv.1 == k)).isSome then
    d.map (fun kv => if kv.1 == k then (kv.1, v) else kv)
  else d ++ [(k, v)]

/-- `InvoiceData.set_metadata`: per-line identifiers are overwritten from
the metadata of the page just merged; shipment number and total quantity
are written only while still unset. -/
def set_metadata (inv : InvoiceData) (md : Metadata) : InvoiceData :=
  { inv with
    edi_number := md.edi_number
    delivery_number := md.delivery_number
    invoice_number := md.invoice_number
    invoice_date := md.invoice_date
    shipment_number :=
      match inv.shipment_number with
      | none => md.shipment_number
      | some v => some v
    total_quantity :=
      match inv.total_quantity with
      | none => md.total_quantity
      | some v => some v }

/-- `InvoiceData.append_items`. -/
def append_items (inv : InvoiceData) (items : List (String × InvoiceItem)) :
    InvoiceData :=
  { inv with items := items.foldl (fun d kv => dictInsert d kv.1 kv.2) inv.items }

/-! ## Invoice parser (`src/invoice/parser.py`) -/

/-- A table extracted from a page: rows of possibly-absent cells. -/
abbrev Table := List (List (Option String))

/-- One PDF page as handed to the engine: `page.extract_text()` (which may
return `None`) and `page.extract_tables()`. -/
structure Page where
  text : Option String := none
  tables : List Table := []

/-- `page_tables[i][r][c]` with the outer `none` signalling the
`IndexError`/`TypeError` caught by `_extract_metadata`; the inner value is
the cell itself, which may be an absent (`None`) cell. -/
def lookupCell (tables : List Table) (i r c : Nat) : Option (Option String) :=
  match tables[i]? with
  | none => none
  | some tbl =>
    match tbl[r]? with
    | none => none
    | some row => row[c]?

/-- `InvoiceParser._is_terms_of_sale_page`. -/
def is_terms_of_sale_page (page_text : String) : Bool :=
  strContains page_text terms_of_sale

/-- `InvoiceParser._extract_metadata`: fixed grid cells from the first
three tables when at least three tables are present, all four fields unset
on any indexing failure, plus the two independent text regex fields. -/
def extract_metadata (page_tables : List Table) (page_text : String) : Metadata :=
  let tquad :
      Option String × Option String × Option String × Option String :=
    if 3 ≤ page_tables.length then
      match lookupCell page_tables 0 2 1, lookupCell page_tables 1 3 1,
          lookupCell page_tables 2 0 1, lookupCell page_tables 2 0 3 with
      | some a, some b, some c, some d => (a, b, c, d)
      | _, _, _, _ => (none, none, none, none)
    else (none, none, none, none)
  { edi_number := tquad.1
    delivery_number := tquad.2.1
    invoice_number := tquad.2.2.1
    invoice_date := tquad.2.2.2
    shipment_number := shipment_number_search page_text
    total_quantity := total_quantity_search page_text }

/-- `InvoiceParser._parse_item_line`: two-stage matching; an item is built
only when both stages succeed. -/
def parse_item_line (line : String) : Option InvoiceItem :=
  match reSearchNL item_step1 line.data with
  | none => none
  | some c1 =>
    match reSearch item_step2 line.data with
    | none => none
    | some c2 =>
      some
        { ean_number := getGrp c1 1
          description := (getGrp c1 2).map pyStrip
          quantity := getGrp c2 1
          unit_price := getGrp c2 2
          total_price_usd := getGrp c2 3
          country := getGrp c2 5
          product_code := getGrp c2 6 }

/-- `InvoiceParser._extract_items`: empty when fewer than four tables were
extracted; otherwise the stripped lines starting with thirteen digits are
run through the two-stage matcher and collected into the EAN-keyed map. -/
def extract_items (page_tables : List Table) (page_text : String) :
    List (String × InvoiceItem) :=
  if page_tables.length < 4 then []
  else
    (((pySplitLines page_text).map pyStrip).filter
        (fun l => ean_line_match l.data)).foldl
      (fun items l =>
        match parse_item_line l with
        | some it => dictInsert items (it.ean_number.getD "") it
        | none => items) []

/-- Python truthiness of the optional `invoice_number` field:
`None` and the empty string are falsy. -/
def invTruthy : Option String → Bool
  | none => false
  | some s => s != ""

/-- One iteration of the page loop of `InvoiceParser.parse_pdf`: the state
is the in-progress record together with the emitted list. -/
def pageStep (st : InvoiceData × List InvoiceData) (p : Page) :
    InvoiceData × List InvoiceData :=
  match p.text with
  | none => st
  | some t =>
    if t = "" then st
    else if is_terms_of_sale_page t then
      (emptyInvoice, st.2 ++ (if invTruthy st.1.invoice_number then [st.1] else []))
    else
      let inv1 := set_metadata st.1 (extract_metadata p.tables t)
      let inv2 := append_items inv1 (extract_items p.tables t)
      (inv2, st.2)

/-- `InvoiceParser.parse_pdf` on the page sequence supplied by the PDF
collaborator: fold the page loop, then emit the last record when it has a
truthy invoice number. -/
def parse_pdf_pages (pages : List Page) : List InvoiceData :=
  let fin := pages.foldl pageStep (emptyInvoice, [])
  fin.2 ++ (if invTruthy fin.1.invoice_number then [fin.1] else [])

/-! ## Packing-list data model and grouping (`src/packing_list`) -/

/-- `PackingListItem`: every field starts unset (`None`). -/
structure PackingListItem where
  edi_number : Option String := none
  order_number : Option String := none
  shipment_number : Option String := none
  hs_code : Option String := none
  brand : Option String := none
  sku : Option String := none
  description : Option String := none
  items_qty : Option String := none
  ean : Option String := none
  batch : Option String := none
  mfg_date : Option String := none
  exp_date : Option String := none
  coo : Option String := none
  dg : Option String := none
deriving DecidableEq, Repr

/-- The grouping key built by `f"{item.ean}_{item.batch}"`. -/
def keyStr (it : PackingListItem) : String :=
  pyStr it.ean ++ "_" ++ pyStr it.batch

/-- `int(q) if q else 0` over the optional quantity field: a falsy value
counts as zero, otherwise Python `int` parsing may fail. -/
def pyQtyInt (q : Option String) : Option Int :=
  match q with
  | none => some 0
  | some s => if s = "" then some 0 else pyInt s

/-- The quantity-summing body of `_group_items_by_ean_batch`: when both
quantities parse, the kept item's quantity becomes their sum rendered by
`str`; a `ValueError` on either side leaves the kept item unchanged. -/
def addQty (kept other : PackingListItem) : PackingListItem :=
  match pyQtyInt kept.items_qty, pyQtyInt other.items_qty with
  | some a, some b => { kept with items_qty := some (toString (a + b)) }
  | _, _ => kept

/-- One step of `_group_items_by_ean_batch`: a new key is appended, an
existing key has the incoming quantity folded into its kept item. -/
def insertItem (grouped : List (String × PackingListItem))
    (it : PackingListItem) : List (String × PackingListItem) :=
  if (grouped.find? (fun kv => kv.1 == keyStr it)).isSome then
    grouped.map (fun kv => if kv.1 == keyStr it then (kv.1, addQty kv.2 it) else kv)
  else grouped ++ [(keyStr it, it)]

/-- `PackingListParser._group_items_by_ean_batch`: fold the items through
the insertion-ordered dictionary and return its values. -/
def group_items_by_ean_batch (items : List PackingListItem) :
    List PackingListItem :=
  (items.foldl insertItem []).map (fun kv => kv.2)

/-- The comma removal `match.group(5).replace(',', '')` applied to the
quantity text by `PackingListParser._create_item_from_match`. -/
def removeCommas (s : String) : String :=
  String.mk (s.data.filter (fun c => c != ','))

/-- First occurrence absorbs the quantities of its later duplicates. -/
def absorb (kept : PackingListItem) (later : List PackingListItem) :
    PackingListItem :=
  later.foldl addQty kept

/-- Grouping as the spec phrases it, still on the string key: the first
occurrence of a key seeds the kept record and absorbs the quantities of
all later items with the same key; distinct keys keep first-seen order. -/
def groupSpecStr : List PackingListItem → List PackingListItem
  | [] => []
  | it :: rest =>
    absorb it (rest.filter (fun j => keyStr j == keyStr it)) ::
      groupSpecStr (rest.filter (fun j => keyStr j != keyStr it))
termination_by l => l.length
decreasing_by
  simp only [List.length_cons]
  exact Nat.lt_succ_of_le (List.length_filter_le _ _)

/-- Sameness of the composite key (EAN, batch) as a pair, the spec's view
of the grouping key. -/
def sameKeyPair (j i : PackingListItem) : Bool :=
  j.ean == i.ean && j.batch == i.batch

/-- Grouping keyed on the composite pair (EAN, batch), following the
spec's words; compared with `group_items_by_ean_batch` below. -/
def groupSpecPair : List PackingListItem → List PackingListItem
  | [] => []
  | it :: rest =>
    absorb it (rest.filter (fun j => sameKeyPair j it)) ::
      groupSpecPair (rest.filter (fun j => !sameKeyPair j it))
termination_by l => l.length
decreasing_by
  simp only [List.length_cons]
  exact Nat.lt_succ_of_le (List.length_filter_le _ _)

/-- An extracted packing-list item: the EAN came from `(\d{13})` and the
batch from `(\S+)`, so both are present and the EAN is thirteen digits. -/
def validEB (it : PackingListItem) : Prop :=
  (∃ e, it.ean = some e ∧ e.data.length = 13 ∧ e.data.all Char.isDigit) ∧
  (∃ b, it.batch = some b)

/-! ## Document classifier and orchestrator (`src/document_parser.py`) -/

/-- `DocumentType`. -/
inductive DocumentType where
  | INVOICE
  | PACKING_LIST
  | AUTO
deriving DecidableEq, Repr

/-- `os.path.basename` on POSIX paths: everything after the last slash. -/
def basename (path : String) : String :=
  String.mk ((path.data.reverse.takeWhile (fun c => c != '/')).reverse)

/-- Filename keywords checked first, invoice family before packing. -/
def invoice_filename_keywords : List String := ["invoice", "ci", "commercial"]

/-- Packing-list filename keywords. -/
def packing_filename_keywords : List String := ["packing", "pl", "pack"]

/-- Invoice content keywords scored against the upper-cased first page. -/
def invoice_content_keywords : List String :=
  ["COMMERCIAL INVOICE", "INVOICE", "BILL TO", "SHIP TO",
   "INVOICE NUMBER", "INVOICE DATE", "EAN", "UNIT PRICE"]

/-- Packing-list content keywords. -/
def packing_content_keywords : List String :=
  ["PACKING LIST", "PACKING", "SHIPPER", "CONSIGNEE",
   "VESSEL", "VOYAGE", "PORT OF LOADING", "GROSS WEIGHT"]

/-- `invoice_score`: the count of invoice keywords present. -/
def invoice_score (up : String) : Nat :=
  invoice_content_keywords.countP (fun k => strContains up k)

/-- `packing_score`: the count of packing keywords present. -/
def packing_score (up : String) : Nat :=
  packing_content_keywords.countP (fun k => strContains up k)

/-- `DocumentParser._detect_document_type`: filename keywords first
(invoice family first), then keyword scoring of the first page's
upper-cased text, defaulting to invoice on a tie or an unreadable page
(`firstPageText = none` covers the empty-PDF and exception paths). -/
def detect_document_type (path : String) (firstPageText : Option String) :
    DocumentType :=
  if invoice_filename_keywords.any
      (fun k => strContains (pyLower (basename path)) k) then
    .INVOICE
  else if packing_filename_keywords.any
      (fun k => strContains (pyLower (basename path)) k) then
    .PACKING_LIST
  else
    match firstPageText with
    | none => .INVOICE
    | some t =>
      if invoice_score (pyUpper t) > packing_score (pyUpper t) then .INVOICE
      else if packing_score (pyUpper t) > invoice_score (pyUpper t) then
        .PACKING_LIST
      else .INVOICE

/-- One entry of a batch result dictionary, with the keys the claims are
about (`data` itself is opaque to the orchestration logic). -/
structure DocResult where
  document_type : String
  file_path : String
  error : Option String
  count : Nat
deriving DecidableEq, Repr

/-- The result entry produced for one source: `parse_document` is passed
in as a function returning the family tag and record count, or raising. -/
def entryFor (parseDoc : String → DocumentType → Except String (String × Nat))
    (p : String) (dt : DocumentType) : DocResult :=
  match parseDoc p dt with
  | .ok r => { document_type := r.1, file_path := p, error := none, count := r.2 }
  | .error e =>
    { document_type := "error", file_path := p, error := some e, count := 0 }

/-- `DocumentParser.parse_multiple_documents`: a single shared type is
replicated; an explicit list of the wrong length is rejected up front;
otherwise every source is processed independently with per-source failures
captured as error-tagged entries. -/
def parse_multiple_documents
    (parseDoc : String → DocumentType → Except String (String × Nat))
    (pdf_paths : List String)
    (doc_types : DocumentType ⊕ List DocumentType) :
    Except String (List DocResult) :=
  let dts :=
    match doc_types with
    | .inl dt => List.replicate pdf_paths.length dt
    | .inr l => l
  if dts.length != pdf_paths.length then
    .error "doc_types list must match pdf_paths length"
  else
    .ok ((pdf_paths.zip dts).map (fun pd => entryFor parseDoc pd.1 pd.2))

/-! ## Concrete inputs used by the example parts of the claims -/

/-- An invoice item line that fully matches both stages. -/
def lineA : String := "1234567890123 A 1 G 1 1 1 1 KR P"

/-- A second full item line with a different EAN. -/
def lineB : String := "9999999999999 B 2 G 2 2 4 2 US Q"

/-- Tables of page A: enough tables for metadata and items, with the
invoice number of invoice A in table 3 row 1 col 2. -/
def tablesA : List Table :=
  [[[], [], [some "x", some "EDI-A"]],
   [[], [], [], [none, some "DLV-A"]],
   [[none, some "INV-A", none, some "2024-01-01"]],
   []]

/-- Tables of page B, carrying invoice number INV-B. -/
def tablesB : List Table :=
  [[[], [], [some "x", some "EDI-B"]],
   [[], [], [], [none, some "DLV-B"]],
   [[none, some "INV-B", none, some "2024-02-02"]],
   []]

/-- Metadata-and-items page A. -/
def pageA : Page := { text := some lineA, tables := tablesA }

/-- Metadata-and-items page B. -/
def pageB : Page := { text := some lineB, tables := tablesB }

/-- The marker page holding the terms-of-sale literal. -/
def pageMarker : Page := { text := some "GENERAL TERMS OF SALE", tables := [] }

/-- A page whose extracted text is empty although tables are present. -/
def pageEmptyText : Page := { text := some "", tables := tablesA }

/-- A page whose text extraction returned `None`. -/
def pageNoText : Page := { text := none, tables := tablesA }

/-- Three batch sources; the second one is corrupt. -/
def paths3 : List String := ["a.pdf", "b.pdf", "c.pdf"]

/-- A per-source parser for the batch example: the second source raises,
the others parse as invoices with two records. -/
def parseDocEx : String → DocumentType → Except String (String × Nat) :=
  fun p _ => if p = "b.pdf" then .error "corrupt" else .ok ("invoice", 2)

/-- First packing-list occurrence of the example key, with quantity text
1,008 as normalised by `_create_item_from_match`. -/
def itemQ1 : PackingListItem :=
  { ean := some "1234567890123", batch := some "B1",
    items_qty := some (removeCommas "1,008"), description := some "FIRST" }

/-- Second occurrence of the same (EAN, batch) key with quantity 42. -/
def itemQ2 : PackingListItem :=
  { ean := some "1234567890123", batch := some "B1",
    items_qty := some (removeCommas "42"), description := some "SECOND" }

/-- The expected grouped record: first occurrence's fields, summed
quantity. -/
def itemQsum : PackingListItem :=
  { ean := some "1234567890123", batch := some "B1",
    items_qty := some "1050", description := some "FIRST" }

/-- The non-quantity fields of a packing-list item, bundled. -/
def nonQtyFields (it : PackingListItem) :=
  (it.edi_number, it.order_number, it.shipment_number, it.hs_code, it.brand,
   it.sku, it.description, it.ean, it.batch, it.mfg_date, it.exp_date,
   it.coo, it.dg)

/-- First `some` in a list of optional values, used to phrase the
first-write-wins merge rule. -/
def firstSome : List (Option String) → Option String
  | [] => none
  | none :: t => firstSome t
  | some v :: _ => some v

/-! ## Helper lemmas -/

theorem firstSome_single (a : Option String) : firstSome [a] = a := by
  cases a <;> rfl

theorem firstSome_keep (a b : Option String) (t : List (Option String)) :
    firstSome ((match a with | none => b | some v => some v) :: t)
      = firstSome (a :: b :: t) := by
  cases a <;> simp [firstSome]

theorem zip_map_eq_zipWith {α β γ : Type} (f : α → β → γ) :
    ∀ (l1 : List α) (l2 : List β),
      (l1.zip l2).map (fun p => f p.1 p.2) = List.zipWith f l1 l2
  | [], _ => rfl
  | _ :: _, [] => rfl
  | a :: l1, b :: l2 => by
    simp [List.zip_cons_cons, zip_map_eq_zipWith f l1 l2]

theorem detect_inv_of_filename (path : String) (text : Option String)
    (h : invoice_filename_keywords.any
        (fun k => strContains (pyLower (basename path)) k) = true) :
    detect_document_type path text = .INVOICE := by
  unfold detect_document_type
  rw [h]
  rfl

theorem empty_not_terms : is_terms_of_sale_page "" = false := by decide

/-! ## Claim theorems -/

/-- C9: a page whose extracted table list has fewer than four tables
yields an empty invoice item map, whatever the page text says. -/
theorem C9_few_tables_no_items (page_tables : List Table) (page_text : String)
    (h : page_tables.length < 4) :
    extract_items page_tables page_text = [] := by
  unfold extract_items
  rw [if_pos h]

/-- Witness for C9 at a page with no tables whose text is a line matching
both stages. -/
theorem C9_few_tables_no_items_witness : extract_items [] lineA = [] :=
  C9_few_tables_no_items [] lineA (by decide)

/-- C10: a page whose extracted text is `None` or empty leaves the
accumulation state untouched: no metadata merge, no items, no record
termination. -/
theorem C10_empty_text_skips (st : InvoiceData × List InvoiceData) (p : Page)
    (h : p.text = none ∨ p.text = some "") : pageStep st p = st := by
  rcases h with h | h <;> simp [pageStep, h]

/-- Witness for C10 on an empty-text page and a `None`-text page, both
with three-table grids attached. -/
theorem C10_empty_text_skips_witness :
    pageStep (emptyInvoice, []) pageEmptyText = (emptyInvoice, []) ∧
    pageStep (emptyInvoice, []) pageNoText = (emptyInvoice, []) :=
  ⟨C10_empty_text_skips (emptyInvoice, []) pageEmptyText (Or.inr rfl),
   C10_empty_text_skips (emptyInvoice, []) pageNoText (Or.inl rfl)⟩

/-- C4: merging any sequence of page metadata into an invoice record
keeps the first non-unset shipment number and total quantity ever
written, while the four per-line identifiers always take the value of the
most recently merged page. -/
theorem C4_metadata_merge_rule (inv : InvoiceData) (mds : List Metadata) :
    (mds.foldl set_metadata inv).shipment_number
      = firstSome (inv.shipment_number :: mds.map (fun m => m.shipment_number)) ∧
    (mds.foldl set_metadata inv).total_quantity
      = firstSome (inv.total_quantity :: mds.map (fun m => m.total_quantity)) ∧
    (mds.foldl set_metadata inv).edi_number
      = (mds.map (fun m => m.edi_number)).getLastD inv.edi_number ∧
    (mds.foldl set_metadata inv).delivery_number
      = (mds.map (fun m => m.delivery_number)).getLastD inv.delivery_number ∧
    (mds.foldl set_metadata inv).invoice_number
      = (mds.map (fun m => m.invoice_number)).getLastD inv.invoice_number ∧
    (mds.foldl set_metadata inv).invoice_date
      = (mds.map (fun m => m.invoice_date)).getLastD inv.invoice_date := by
  induction mds generalizing inv with
  | nil =>
    simp [firstSome_single]
  | cons m mds ih =>
    obtain ⟨h1, h2, h3, h4, h5, h6⟩ := ih (set_metadata inv m)
    refine ⟨?_, ?_, ?_, ?_, ?_, ?_⟩
    · rw [List.foldl_cons, h1, List.map_cons,
        show (set_metadata inv m).shipment_number
          = (match inv.shipment_number with
             | none => m.shipment_number
             | some v => some v) from rfl]
      exact firstSome_keep _ _ _
    · rw [List.foldl_cons, h2, List.map_cons,
        show (set_metadata inv m).total_quantity
          = (match inv.total_quantity with
             | none => m.total_quantity
             | some v => some v) from rfl]
      exact firstSome_keep _ _ _
    · rw [List.foldl_cons, h3, List.map_cons, List.getLastD_cons]
      rfl
    · rw [List.foldl_cons, h4, List.map_cons, List.getLastD_cons]
      rfl
    · rw [List.foldl_cons, h5, List.map_cons, List.getLastD_cons]
      rfl
    · rw [List.foldl_cons, h6, List.map_cons, List.getLastD_cons]
      rfl

/-- C5: a batch call with an explicit type list of the wrong length is
rejected up front with no source processed; otherwise each source is
mapped independently to its entry, a failing source becoming an
error-tagged entry at its own position; the 3-source example has only
entry 2 error-tagged. -/
theorem C5_batch_orchestration
    (parseDoc : String → DocumentType → Except String (String × Nat))
    (pdf_paths : List String) (dts : List DocumentType) :
    (dts.length ≠ pdf_paths.length →
      parse_multiple_documents parseDoc pdf_paths (.inr dts)
        = .error "doc_types list must match pdf_paths length") ∧
    (dts.length = pdf_paths.length →
      parse_multiple_documents parseDoc pdf_paths (.inr dts)
        = .ok (List.zipWith (entryFor parseDoc) pdf_paths dts)) ∧
    (∀ p dt e, parseDoc p dt = .error e →
      entryFor parseDoc p dt
        = { document_type := "error", file_path := p, error := some e,
            count := 0 }) ∧
    (parse_multiple_documents parseDocEx paths3 (.inl .INVOICE)
      = .ok
        [{ document_type := "invoice", file_path := "a.pdf", error := none,
           count := 2 },
         { document_type := "error", file_path := "b.pdf",
           error := some "corrupt", count := 0 },
         { document_type := "invoice", file_path := "c.pdf", error := none,
           count := 2 }]) := by
  refine ⟨?_, ?_, ?_, ?_⟩
  · intro h
    have hb : (dts.length != pdf_paths.length) = true := by
      simpa using h
    simp [parse_multiple_documents, hb]
  · intro h
    have hb : (dts.length != pdf_paths.length) = false := by
      simpa using h
    simp [parse_multiple_documents, hb, zip_map_eq_zipWith]
  · intro p dt e h
    simp [entryFor, h]
  · rfl

/-- Witness for C5 at a concrete mismatched batch call. -/
theorem C5_batch_orchestration_witness :
    parse_multiple_documents parseDocEx paths3 (.inr [.INVOICE])
      = .error "doc_types list must match pdf_paths length" :=
  (C5_batch_orchestration parseDocEx paths3 [.INVOICE]).1 (by decide)

/-- C8: with at least three tables the four table metadata fields are the
fixed grid cells, any indexing failure leaves all four unset, and the two
text regex fields are extracted independently of the tables. -/
theorem C8_table_metadata (page_tables : List Table) (page_text : String) :
    ((extract_metadata page_tables page_text).shipment_number
        = shipment_number_search page_text ∧
      (extract_metadata page_tables page_text).total_quantity
        = total_quantity_search page_text) ∧
    (3 ≤ page_tables.length →
      (∀ a b c d,
        lookupCell page_tables 0 2 1 = some a →
        lookupCell page_tables 1 3 1 = some b →
        lookupCell page_tables 2 0 1 = some c →
        lookupCell page_tables 2 0 3 = some d →
        (extract_metadata page_tables page_text).edi_number = a ∧
        (extract_metadata page_tables page_text).delivery_number = b ∧
        (extract_metadata page_tables page_text).invoice_number = c ∧
        (extract_metadata page_tables page_text).invoice_date = d) ∧
      ((lookupCell page_tables 0 2 1 = none ∨
        lookupCell page_tables 1 3 1 = none ∨
        lookupCell page_tables 2 0 1 = none ∨
        lookupCell page_tables 2 0 3 = none) →
        (extract_metadata page_tables page_text).edi_number = none ∧
        (extract_metadata page_tables page_text).delivery_number = none ∧
        (extract_metadata page_tables page_text).invoice_number = none ∧
        (extract_metadata page_tables page_text).invoice_date = none)) ∧
    (page_tables.length < 3 →
      (extract_metadata page_tables page_text).edi_number = none ∧
      (extract_metadata page_tables page_text).delivery_number = none ∧
      (extract_metadata page_tables page_text).invoice_number = none ∧
      (extract_metadata page_tables page_text).invoice_date = none) := by
  refine ⟨⟨rfl, rfl⟩, fun h => ⟨?_, ?_⟩, fun h => ?_⟩
  · intro a b c d h1 h2 h3 h4
    simp [extract_metadata, h, h1, h2, h3, h4]
  · intro hd
    rcases hl1 : lookupCell page_tables 0 2 1 with _ | a <;>
      rcases hl2 : lookupCell page_tables 1 3 1 with _ | b <;>
        rcases hl3 : lookupCell page_tables 2 0 1 with _ | c <;>
          rcases hl4 : lookupCell page_tables 2 0 3 with _ | d <;>
            simp_all [extract_metadata]
  · have hn : ¬ 3 ≤ page_tables.length := by omega
    simp [extract_metadata, hn]

/-- Witness for C8 at a grid of three empty tables, where the very first
cell read fails. -/
theorem C8_table_metadata_witness :
    (extract_metadata [[], [], []] "x").edi_number = none ∧
    (extract_metadata [[], [], []] "x").delivery_number = none ∧
    (extract_metadata [[], [], []] "x").invoice_number = none ∧
    (extract_metadata [[], [], []] "x").invoice_date = none :=
  ((C8_table_metadata [[], [], []] "x").2.1 (by decide)).2 (Or.inl rfl)

/-- C6: invoice filename keywords are checked first and win without
content inspection, then packing filename keywords; with no filename
match the two content scores decide, a tie or an unreadable first page
defaulting to invoice; filename 2024 CI.pdf is an invoice whatever its
content, and shipment.pdf with packing keywords on the first page is a
packing list. -/
theorem C6_document_type_classification :
    (∀ path text,
      invoice_filename_keywords.any
          (fun k => strContains (pyLower (basename path)) k) = true →
      detect_document_type path text = .INVOICE) ∧
    (∀ path text,
      invoice_filename_keywords.any
          (fun k => strContains (pyLower (basename path)) k) = false →
      packing_filename_keywords.any
          (fun k => strContains (pyLower (basename path)) k) = true →
      detect_document_type path text = .PACKING_LIST) ∧
    (∀ path t,
      invoice_filename_keywords.any
          (fun k => strContains (pyLower (basename path)) k) = false →
      packing_filename_keywords.any
          (fun k => strContains (pyLower (basename path)) k) = false →
      detect_document_type path (some t)
        = (if packing_score (pyUpper t) > invoice_score (pyUpper t) then
            .PACKING_LIST
          else .INVOICE)) ∧
    (∀ path,
      invoice_filename_keywords.any
          (fun k => strContains (pyLower (basename path)) k) = false →
      packing_filename_keywords.any
          (fun k => strContains (pyLower (basename path)) k) = false →
      detect_document_type path none = .INVOICE) ∧
    (∀ text, detect_document_type "2024 CI.pdf" text = .INVOICE) ∧
    (detect_document_type "shipment.pdf"
        (some "PACKING LIST CONSIGNEE VESSEL") = .PACKING_LIST) := by
  refine ⟨?_, ?_, ?_, ?_, ?_, ?_⟩
  · exact detect_inv_of_filename
  · intro path text h1 h2
    unfold detect_document_type
    rw [h1, h2]
    rfl
  · intro path t h1 h2
    unfold detect_document_type
    rw [h1, h2]
    simp only [Bool.false_eq_true, if_false]
    by_cases hc : packing_score (pyUpper t) > invoice_score (pyUpper t)
    · rw [if_neg (by omega), if_pos hc]
    · rw [if_neg hc]
      by_cases hc2 : invoice_score (pyUpper t) > packing_score (pyUpper t)
      · rw [if_pos hc2]
      · rw [if_neg hc2]
  · intro path h1 h2
    unfold detect_document_type
    rw [h1, h2]
    rfl
  · intro text
    exact detect_inv_of_filename "2024 CI.pdf" text (by decide)
  · decide

/-- Witness for C6: a neutral filename with a tied zero score defaults to
invoice. -/
theorem C6_document_type_classification_witness :
    detect_document_type "doc.pdf" (some "X") = .INVOICE :=
  (C6_document_type_classification.2.2.1 "doc.pdf" "X" (by decide)
      (by decide)).trans (by decide)

/-- C1: a page containing the terms-of-sale literal terminates the
in-progress record — emitted exactly when its invoice number is truthy,
a fresh record started, nothing of the marker page merged; the end of
input emits under the same condition; the three-page example produces the
two records with no item leakage across the marker. -/
theorem C1_page_accumulation :
    (∀ cur out p t, p.text = some t → is_terms_of_sale_page t = true →
      pageStep (cur, out) p
        = (emptyInvoice,
            out ++ (if invTruthy cur.invoice_number then [cur] else []))) ∧
    (∀ pages,
      parse_pdf_pages pages
        = (pages.foldl pageStep (emptyInvoice, [])).2
          ++ (if invTruthy
                (pages.foldl pageStep (emptyInvoice, [])).1.invoice_number
              then [(pages.foldl pageStep (emptyInvoice, [])).1] else [])) ∧
    ((parse_pdf_pages [pageA, pageMarker, pageB]).map
        (fun r => r.invoice_number) = [some "INV-A", some "INV-B"]) ∧
    ((parse_pdf_pages [pageA, pageMarker, pageB]).map
        (fun r => r.items.map (fun kv => kv.1))
      = [["1234567890123"], ["9999999999999"]]) := by
  refine ⟨?_, fun pages => rfl, by decide, by decide⟩
  intro cur out p t hpt hm
  have ht : t ≠ "" := by
    intro he
    rw [he] at hm
    exact absurd hm (by decide)
  simp [pageStep, hpt, ht, hm]

/-- Witness for C1: the marker page applied to the fresh state emits
nothing (no invoice number yet) and resets the record. -/
theorem C1_page_accumulation_witness :
    pageStep (emptyInvoice, []) pageMarker = (emptyInvoice, []) :=
  (C1_page_accumulation.1 emptyInvoice [] pageMarker "GENERAL TERMS OF SALE"
      rfl (by decide)).trans (by decide)

/-! ## Grouping lemmas for the packing-list aggregation -/

theorem keyStr_addQty (a b : PackingListItem) : keyStr (addQty a b) = keyStr a := by
  unfold addQty
  split <;> rfl

theorem keyStr_absorb (later : List PackingListItem) :
    ∀ kept, keyStr (absorb kept later) = keyStr kept := by
  induction later with
  | nil => intro kept; rfl
  | cons x xs ih =>
    intro kept
    show keyStr (absorb (addQty kept x) xs) = keyStr kept
    rw [ih (addQty kept x), keyStr_addQty]

theorem insertItem_cons (k : String) (a : PackingListItem)
    (acc : List (String × PackingListItem)) (it : PackingListItem)
    (hk : ∀ kv ∈ acc, kv.1 ≠ k) :
    insertItem ((k, a) :: acc) it
      = if keyStr it = k then (k, addQty a it) :: acc
        else (k, a) :: insertItem acc it := by
  by_cases h : keyStr it = k
  · subst h
    have hmap :
        acc.map (fun kv =>
            if kv.1 == keyStr it then (kv.1, addQty kv.2 it) else kv) = acc := by
      have hcg : ∀ kv ∈ acc,
          (if kv.1 == keyStr it then (kv.1, addQty kv.2 it) else kv) = id kv := by
        intro kv hkv
        simp [hk kv hkv]
      rw [List.map_congr_left hcg, List.map_id]
    have hfind : List.find? (fun kv => kv.1 == keyStr it) ((keyStr it, a) :: acc)
        = some (keyStr it, a) := by
      simp [List.find?_cons]
    unfold insertItem
    rw [if_pos (by rw [hfind]; rfl), if_pos rfl, List.map_cons]
    congr 1
    simp
  · have hbk : (k == keyStr it) = false := by
      simp [Ne.symm h]
    have hfcons : List.find? (fun kv => kv.1 == keyStr it) ((k, a) :: acc)
        = List.find? (fun kv => kv.1 == keyStr it) acc := by
      simp [List.find?_cons, hbk]
    unfold insertItem
    rw [if_neg h, hfcons]
    by_cases hf : (List.find? (fun kv => kv.1 == keyStr it) acc).isSome = true
    · rw [if_pos hf, List.map_cons]
      congr 1
      · simp [hbk]
      · rw [if_pos hf]
    · rw [if_neg hf, if_neg hf]
      rfl

theorem keys_insertItem (acc : List (String × PackingListItem))
    (it : PackingListItem) :
    ∀ kv ∈ insertItem acc it, kv.1 ∈ acc.map Prod.fst ∨ kv.1 = keyStr it := by
  unfold insertItem
  split
  · intro kv hkv
    rw [List.mem_map] at hkv
    obtain ⟨kv0, hkv0, hupd⟩ := hkv
    left
    rw [List.mem_map]
    refine ⟨kv0, hkv0, ?_⟩
    rw [← hupd]
    by_cases hb : kv0.1 == keyStr it <;> simp [hb]
  · intro kv hkv
    rw [List.mem_append] at hkv
    rcases hkv with hkv | hkv
    · left
      exact List.mem_map_of_mem Prod.fst hkv
    · right
      rw [List.mem_singleton] at hkv
      rw [hkv]

theorem foldl_insertItem_cons (k : String) (items : List PackingListItem) :
    ∀ (a : PackingListItem) (acc : List (String × PackingListItem)),
      (∀ kv ∈ acc, kv.1 ≠ k) →
      List.foldl insertItem ((k, a) :: acc) items
        = (k, absorb a (items.filter (fun j => keyStr j == k)))
          :: List.foldl insertItem acc (items.filter (fun j => keyStr j != k)) := by
  induction items with
  | nil =>
    intro a acc hk
    simp [absorb]
  | cons it rest ih =>
    intro a acc hk
    rw [List.foldl_cons, insertItem_cons k a acc it hk]
    by_cases h : keyStr it = k
    · rw [if_pos h, ih (addQty a it) acc hk]
      have hsame : (it :: rest).filter (fun j => keyStr j == k)
          = it :: rest.filter (fun j => keyStr j == k) := by
        simp [List.filter_cons, h]
      have hdiff : (it :: rest).filter (fun j => keyStr j != k)
          = rest.filter (fun j => keyStr j != k) := by
        simp [List.filter_cons, h]
      rw [hsame, hdiff]
      rfl
    · have hk2 : ∀ kv ∈ insertItem acc it, kv.1 ≠ k := by
        intro kv hkv
        rcases keys_insertItem acc it kv hkv with hm | he
        · rw [List.mem_map] at hm
          obtain ⟨kv0, hkv0, hfst⟩ := hm
          rw [← hfst]
          exact hk kv0 hkv0
        · rw [he]
          exact h
      rw [if_neg h, ih a (insertItem acc it) hk2]
      have hsame : (it :: rest).filter (fun j => keyStr j == k)
          = rest.filter (fun j => keyStr j == k) := by
        simp [List.filter_cons, h]
      have hdiff : (it :: rest).filter (fun j => keyStr j != k)
          = it :: rest.filter (fun j => keyStr j != k) := by
        simp [List.filter_cons, h]
      rw [hsame, hdiff, List.foldl_cons]

theorem group_eq_specStr (items : List PackingListItem) :
    group_items_by_ean_batch items = groupSpecStr items := by
  induction items using groupSpecStr.induct with
  | case1 => simp [group_items_by_ean_batch, groupSpecStr]
  | case2 it rest ih =>
    show (List.foldl insertItem [] (it :: rest)).map (fun kv => kv.2) = _
    rw [List.foldl_cons]
    have h0 : insertItem [] it = [(keyStr it, it)] := by
      simp [insertItem]
    rw [h0,
      foldl_insertItem_cons (keyStr it) rest it [] (by simp),
      List.map_cons]
    show _ :: group_items_by_ean_batch (rest.filter _) = _
    rw [ih]
    conv_rhs => rw [groupSpecStr]

theorem strData_inj {s t : String} (h : s.data = t.data) : s = t := by
  cases s
  cases t
  exact congrArg String.mk h

theorem keyStr_eq_iff (i j : PackingListItem) (hi : validEB i) (hj : validEB j) :
    keyStr j = keyStr i ↔ (j.ean = i.ean ∧ j.batch = i.batch) := by
  obtain ⟨⟨e, he, hel, _⟩, b, hb⟩ := hi
  obtain ⟨⟨e2, he2, he2l, _⟩, b2, hb2⟩ := hj
  rw [keyStr, keyStr, he, hb, he2, hb2]
  constructor
  · intro h
    have hd : e2.data ++ '_' :: b2.data = e.data ++ '_' :: b.data := by
      have hq := congrArg String.data h
      simpa [pyStr] using hq
    have hlen : e2.data.length = e.data.length := by
      rw [he2l, hel]
    obtain ⟨h1, h2⟩ := List.append_inj hd hlen
    have h2d : b2.data = b.data := by
      injection h2
    exact ⟨congrArg some (strData_inj h1), congrArg some (strData_inj h2d)⟩
  · intro ⟨h1, h2⟩
    rw [Option.some_inj] at h1 h2
    rw [h1, h2]

theorem keyStr_beq_eq (i j : PackingListItem) (hi : validEB i) (hj : validEB j) :
    (keyStr j == keyStr i) = sameKeyPair j i := by
  have hiff := keyStr_eq_iff i j hi hj
  rw [Bool.eq_iff_iff]
  simp only [sameKeyPair, beq_iff_eq, Bool.and_eq_true]
  exact hiff

theorem specStr_eq_specPair :
    ∀ items : List PackingListItem, (∀ it ∈ items, validEB it) →
      groupSpecStr items = groupSpecPair items := by
  intro items
  induction items using groupSpecStr.induct with
  | case1 =>
    intro _
    simp [groupSpecStr, groupSpecPair]
  | case2 it rest ih =>
    intro hv
    have hvit : validEB it := hv it (by simp)
    have hfs : rest.filter (fun j => keyStr j == keyStr it)
        = rest.filter (fun j => sameKeyPair j it) :=
      List.filter_congr (fun j hj =>
        keyStr_beq_eq it j hvit (hv j (List.mem_cons_of_mem it hj)))
    have hfd : rest.filter (fun j => keyStr j != keyStr it)
        = rest.filter (fun j => !sameKeyPair j it) :=
      List.filter_congr (fun j hj => by
        rw [bne, keyStr_beq_eq it j hvit (hv j (List.mem_cons_of_mem it hj))])
    rw [groupSpecStr, groupSpecPair]
    rw [ih (fun x hx =>
      hv x (List.mem_cons_of_mem it (List.mem_of_mem_filter hx)))]
    rw [hfs, hfd]

theorem nonQty_addQty (a b : PackingListItem) :
    nonQtyFields (addQty a b) = nonQtyFields a := by
  unfold addQty
  split <;> rfl

theorem nonQty_absorb (later : List PackingListItem) :
    ∀ kept, nonQtyFields (absorb kept later) = nonQtyFields kept := by
  induction later with
  | nil => intro kept; rfl
  | cons x xs ih =>
    intro kept
    show nonQtyFields (absorb (addQty kept x) xs) = nonQtyFields kept
    rw [ih (addQty kept x), nonQty_addQty]

theorem addQty_keep (kept other : PackingListItem)
    (h : pyQtyInt kept.items_qty = none ∨ pyQtyInt other.items_qty = none) :
    addQty kept other = kept := by
  cases h1 : pyQtyInt kept.items_qty <;>
    cases h2 : pyQtyInt other.items_qty <;>
      simp_all [addQty]

/-- C2: the dictionary grouping pass of the packing-list parser equals,
for extracted items (13-digit EAN, present batch), the spec-level
grouping by the composite (EAN, batch) key — first occurrence seeds the
kept record in first-seen key order and absorbs later same-key
quantities; non-quantity fields always come from the first occurrence; a
quantity parse failure leaves the kept item unchanged; and the 1,008 plus
42 example groups to a single item with quantity 1050. -/
theorem C2_grouping_by_ean_batch :
    (∀ items : List PackingListItem, (∀ it ∈ items, validEB it) →
      group_items_by_ean_batch items = groupSpecPair items) ∧
    (∀ (kept : PackingListItem) (later : List PackingListItem),
      nonQtyFields (absorb kept later) = nonQtyFields kept) ∧
    (∀ kept other,
      (pyQtyInt kept.items_qty = none ∨ pyQtyInt other.items_qty = none) →
      addQty kept other = kept) ∧
    (group_items_by_ean_batch [itemQ1, itemQ2] = [itemQsum]) := by
  refine ⟨?_, fun kept later => nonQty_absorb later kept, addQty_keep, ?_⟩
  · intro items hv
    rw [group_eq_specStr]
    exact specStr_eq_specPair items hv
  · decide

/-- Witness for C2 on the two-item example list, whose items are valid
extracted items. -/
theorem C2_grouping_by_ean_batch_witness :
    group_items_by_ean_batch [itemQ1, itemQ2] = groupSpecPair [itemQ1, itemQ2] :=
  C2_grouping_by_ean_batch.1 [itemQ1, itemQ2] (by
    intro it hit
    rcases List.mem_pair.mp hit with rfl | rfl <;>
      exact ⟨⟨"1234567890123", rfl, by decide, by decide⟩, "B1", rfl⟩)

theorem mem_keys_specStr :
    ∀ (l : List PackingListItem) (x : String),
      x ∈ (groupSpecStr l).map keyStr → x ∈ l.map keyStr := by
  intro l
  induction l using groupSpecStr.induct with
  | case1 => simp [groupSpecStr]
  | case2 it rest ih =>
    intro x hx
    rw [groupSpecStr, List.map_cons, List.mem_cons] at hx
    rcases hx with hx | hx
    · rw [keyStr_absorb] at hx
      rw [hx, List.map_cons]
      exact List.mem_cons_self _ _
    · have hr := ih x hx
      rw [List.mem_map] at hr
      obtain ⟨j, hj, hjx⟩ := hr
      rw [List.map_cons, List.mem_cons]
      right
      rw [List.mem_map]
      exact ⟨j, List.mem_of_mem_filter hj, hjx⟩

theorem nodup_keys_specStr :
    ∀ l : List PackingListItem, ((groupSpecStr l).map keyStr).Nodup := by
  intro l
  induction l using groupSpecStr.induct with
  | case1 => simp [groupSpecStr]
  | case2 it rest ih =>
    rw [groupSpecStr, List.map_cons, List.nodup_cons]
    refine ⟨?_, ih⟩
    rw [keyStr_absorb]
    intro hmem
    have hr := mem_keys_specStr _ _ hmem
    rw [List.mem_map] at hr
    obtain ⟨j, hj, hjx⟩ := hr
    rw [List.mem_filter] at hj
    have hne : (keyStr j != keyStr it) = true := hj.2
    rw [bne_iff_ne] at hne
    exact hne hjx

theorem specStr_of_nodup :
    ∀ l : List PackingListItem, ((l.map keyStr).Nodup) → groupSpecStr l = l := by
  intro l
  induction l with
  | nil => intro _; simp [groupSpecStr]
  | cons it rest ih =>
    intro hnd
    rw [List.map_cons, List.nodup_cons] at hnd
    obtain ⟨hni, hnd2⟩ := hnd
    have hsame : rest.filter (fun j => keyStr j == keyStr it) = [] := by
      rw [List.filter_eq_nil_iff]
      intro j hj hbj
      rw [beq_iff_eq] at hbj
      exact hni (List.mem_map.mpr ⟨j, hj, hbj⟩)
    have hdiff : rest.filter (fun j => keyStr j != keyStr it) = rest := by
      rw [List.filter_eq_self]
      intro j hj
      rw [bne_iff_ne]
      intro hbj
      exact hni (List.mem_map.mpr ⟨j, hj, hbj⟩)
    rw [groupSpecStr, hsame, hdiff, ih hnd2]
    rfl

/-- C7: the packing-list grouping pass is idempotent — applied to its own
output it returns the same list, since output keys are pairwise distinct
in first-seen order. -/
theorem C7_grouping_idempotent (items : List PackingListItem) :
    group_items_by_ean_batch (group_items_by_ean_batch items)
      = group_items_by_ean_batch items := by
  calc group_items_by_ean_batch (group_items_by_ean_batch items)
      = groupSpecStr (group_items_by_ean_batch items) := group_eq_specStr _
    _ = groupSpecStr (groupSpecStr items) := by rw [group_eq_specStr]
    _ = groupSpecStr items := specStr_of_nodup _ (nodup_keys_specStr items)
    _ = group_items_by_ean_batch items := (group_eq_specStr items).symm

/-! ## Inversion lemmas for the regular-expression engine -/

theorem mem_mruns_lit {cs s : List Char} {c : Caps} {s2 : List Char} :
    (c, s2) ∈ mruns (.lit cs) s ↔
      c = [] ∧ cs.isPrefixOf s = true ∧ s2 = s.drop cs.length := by
  by_cases hp : cs.isPrefixOf s = true <;>
    simp [mruns, hp, and_comm]

theorem mem_mruns_eosP {s : List Char} {c : Caps} {s2 : List Char} :
    (c, s2) ∈ mruns .eosP s ↔ c = [] ∧ s2 = s ∧ (s = [] ∨ s = ['\n']) := by
  by_cases hp : s = [] ∨ s = ['\n'] <;>
    simp [mruns, hp, and_comm]

theorem mem_mruns_repE {p : Char → Bool} {n : Nat} {s : List Char} {c : Caps}
    {s2 : List Char} :
    (c, s2) ∈ mruns (.repE p n) s ↔
      c = [] ∧ n ≤ (s.takeWhile p).length ∧ s2 = s.drop n := by
  by_cases hp : n ≤ (s.takeWhile p).length <;>
    simp [mruns, hp, and_comm]

theorem mem_mruns_plusG {p : Char → Bool} {s : List Char} {c : Caps}
    {s2 : List Char} :
    (c, s2) ∈ mruns (.plusG p) s ↔
      c = [] ∧ ∃ n, 1 ≤ n ∧ n ≤ (s.takeWhile p).length ∧ s2 = s.drop n := by
  simp only [mruns, List.mem_map, List.mem_range]
  constructor
  · rintro ⟨j, hj, heq⟩
    obtain ⟨hc, hs⟩ := Prod.mk.injEq .. ▸ heq
    refine ⟨hc.symm, (s.takeWhile p).length - j, by omega, by omega, ?_⟩
    rw [← hs]
  · rintro ⟨hc, n, h1, h2, hs⟩
    refine ⟨(s.takeWhile p).length - n, by omega, ?_⟩
    rw [hc, hs]
    have : (s.takeWhile p).length - ((s.takeWhile p).length - n) = n := by omega
    rw [this]

theorem mem_mruns_plusL {p : Char → Bool} {s : List Char} {c : Caps}
    {s2 : List Char} :
    (c, s2) ∈ mruns (.plusL p) s ↔
      c = [] ∧ ∃ n, 1 ≤ n ∧ n ≤ (s.takeWhile p).length ∧ s2 = s.drop n := by
  simp only [mruns, List.mem_map, List.mem_range]
  constructor
  · rintro ⟨j, hj, heq⟩
    obtain ⟨hc, hs⟩ := Prod.mk.injEq .. ▸ heq
    exact ⟨hc.symm, j + 1, by omega, by omega, hs.symm⟩
  · rintro ⟨hc, n, h1, h2, hs⟩
    refine ⟨n - 1, by omega, ?_⟩
    rw [hc, hs]
    have : n - 1 + 1 = n := by omega
    rw [this]

theorem mem_mruns_starG {p : Char → Bool} {s : List Char} {c : Caps}
    {s2 : List Char} :
    (c, s2) ∈ mruns (.starG p) s ↔
      c = [] ∧ ∃ n, n ≤ (s.takeWhile p).length ∧ s2 = s.drop n := by
  simp only [mruns, List.mem_map, List.mem_range]
  constructor
  · rintro ⟨j, hj, heq⟩
    obtain ⟨hc, hs⟩ := Prod.mk.injEq .. ▸ heq
    exact ⟨hc.symm, (s.takeWhile p).length - j, by omega, hs.symm⟩
  · rintro ⟨hc, n, h2, hs⟩
    refine ⟨(s.takeWhile p).length - n, by omega, ?_⟩
    rw [hc, hs]
    have : (s.takeWhile p).length - ((s.takeWhile p).length - n) = n := by omega
    rw [this]

theorem mem_mruns_seq {a b : RE} {s : List Char} {c : Caps} {s2 : List Char} :
    (c, s2) ∈ mruns (.seq a b) s ↔
      ∃ c1 s1 c2, (c1, s1) ∈ mruns a s ∧ (c2, s2) ∈ mruns b s1 ∧
        c = c1 ++ c2 := by
  simp only [mruns, List.mem_flatMap, List.mem_map]
  constructor
  · rintro ⟨⟨c1, s1⟩, h1, ⟨c2, s3⟩, h2, heq⟩
    obtain ⟨hc, hs⟩ := Prod.mk.injEq .. ▸ heq
    exact ⟨c1, s1, c2, h1, hs ▸ h2, hc.symm⟩
  · rintro ⟨c1, s1, c2, h1, h2, rfl⟩
    exact ⟨(c1, s1), h1, (c2, s2), h2, rfl⟩

theorem mem_mruns_grp {i : Nat} {r : RE} {s : List Char} {c : Caps}
    {s2 : List Char} :
    (c, s2) ∈ mruns (.grp i r) s ↔
      ∃ c0, (c0, s2) ∈ mruns r s ∧
        c = c0 ++ [(i, s.take (s.length - s2.length))] := by
  simp only [mruns, List.mem_map]
  constructor
  · rintro ⟨⟨c0, s3⟩, h0, heq⟩
    obtain ⟨hc, hs⟩ := Prod.mk.injEq .. ▸ heq
    exact ⟨c0, hs ▸ h0, by rw [← hc, ← hs]⟩
  · rintro ⟨c0, h0, rfl⟩
    exact ⟨(c0, s2), h0, rfl⟩

theorem take_of_takeWhile {p : Char → Bool} {s : List Char} {n : Nat}
    (h : n ≤ (s.takeWhile p).length) :
    (s.take n).length = n ∧ (s.take n).all p = true := by
  have hlen : n ≤ s.length := le_trans h ((List.takeWhile_prefix p).length_le)
  constructor
  · rw [List.length_take]
    omega
  · have ht : s.take n = (s.takeWhile p).take n := by
      conv_lhs => rw [← List.takeWhile_append_dropWhile (p := p) (l := s)]
      rw [List.take_append_eq_append_take, Nat.sub_eq_zero_of_le h,
        List.take_zero, List.append_nil]
    rw [ht, List.all_eq_true]
    intro x hx
    exact List.mem_takeWhile_imp (List.take_subset n _ hx)

theorem grp_repE_inv {i n : Nat} {p : Char → Bool} {s : List Char} {c : Caps}
    {s2 : List Char} (h : (c, s2) ∈ mruns (.grp i (.repE p n)) s) :
    c = [(i, s.take n)] ∧ (s.take n).length = n ∧ (s.take n).all p = true ∧
      s2 = s.drop n := by
  rw [mem_mruns_grp] at h
  obtain ⟨c0, h0, hc⟩ := h
  rw [mem_mruns_repE] at h0
  obtain ⟨hc0, hle, hs2⟩ := h0
  have hlen : n ≤ s.length := le_trans hle ((List.takeWhile_prefix p).length_le)
  have htake := take_of_takeWhile hle
  have hnn : s.length - s2.length = n := by
    rw [hs2, List.length_drop]
    omega
  subst hc0
  rw [hnn] at hc
  exact ⟨by simpa using hc, htake.1, htake.2, hs2⟩

theorem grp_plusG_inv {i : Nat} {p : Char → Bool} {s : List Char} {c : Caps}
    {s2 : List Char} (h : (c, s2) ∈ mruns (.grp i (.plusG p)) s) :
    ∃ g, c = [(i, g)] ∧ 1 ≤ g.length ∧ g.all p = true ∧
      s2 = s.drop g.length := by
  rw [mem_mruns_grp] at h
  obtain ⟨c0, h0, hc⟩ := h
  rw [mem_mruns_plusG] at h0
  obtain ⟨hc0, n, h1, h2, hs2⟩ := h0
  have hlen : n ≤ s.length := le_trans h2 ((List.takeWhile_prefix p).length_le)
  have htake := take_of_takeWhile h2
  have hnn : s.length - s2.length = n := by
    rw [hs2, List.length_drop]
    omega
  subst hc0
  rw [hnn] at hc
  refine ⟨s.take n, by simpa using hc, ?_, htake.2, ?_⟩
  · rw [htake.1]
    exact h1
  · rw [htake.1]
    exact hs2

theorem grp_plusL_inv {i : Nat} {p : Char → Bool} {s : List Char} {c : Caps}
    {s2 : List Char} (h : (c, s2) ∈ mruns (.grp i (.plusL p)) s) :
    ∃ g, c = [(i, g)] := by
  rw [mem_mruns_grp] at h
  obtain ⟨c0, h0, hc⟩ := h
  rw [mem_mruns_plusL] at h0
  obtain ⟨hc0, _⟩ := h0
  subst hc0
  exact ⟨_, by simpa using hc⟩

theorem grp_seqPS_inv {i : Nat} {p q : Char → Bool} {s : List Char} {c : Caps}
    {s2 : List Char}
    (h : (c, s2) ∈ mruns (.grp i (.seq (.plusG p) (.starG q))) s) :
    ∃ g, c = [(i, g)] := by
  rw [mem_mruns_grp] at h
  obtain ⟨c0, h0, hc⟩ := h
  rw [mem_mruns_seq] at h0
  obtain ⟨c1, s1, c2, h1, h2, hc0⟩ := h0
  rw [mem_mruns_plusG] at h1
  rw [mem_mruns_starG] at h2
  rw [h1.1, h2.1] at hc0
  subst hc0
  exact ⟨_, by simpa using hc⟩

theorem step1_caps {s : List Char} {c : Caps} {s2 : List Char}
    (h : (c, s2) ∈ mruns item_step1 s) :
    ∃ e d w, c = [(1, e), (2, d), (3, w)] ∧ e.length = 13 ∧
      e.all Char.isDigit = true := by
  unfold item_step1 at h
  rw [mem_mruns_seq] at h
  obtain ⟨c1, s1, crest, h1, hrest, hc⟩ := h
  obtain ⟨hc1, hel, hea, _⟩ := grp_repE_inv h1
  rw [mem_mruns_seq] at hrest
  obtain ⟨ca, sa, cb, ha, hb, hcr⟩ := hrest
  rw [mem_mruns_plusG] at ha
  rw [mem_mruns_seq] at hb
  obtain ⟨cc, sc, cd, hcm, hd, hcb⟩ := hb
  obtain ⟨d, hcc⟩ := grp_plusL_inv hcm
  rw [mem_mruns_seq] at hd
  obtain ⟨ce, se, cf, he, hf, hcd⟩ := hd
  rw [mem_mruns_plusG] at he
  rw [mem_mruns_seq] at hf
  obtain ⟨cg, sg, ch, hg, hh, hcf⟩ := hf
  obtain ⟨w, hcg, _⟩ := grp_plusG_inv hg
  rw [mem_mruns_seq] at hh
  obtain ⟨ci, si, cj, hi, hj, hch⟩ := hh
  rw [mem_mruns_plusG] at hi
  rw [mem_mruns_lit] at hj
  refine ⟨s.take 13, d, w, ?_, hel, hea⟩
  rw [hc, hc1, hcr, ha.1, hcb, hcc, hcd, he.1, hcf, hcg, hch, hi.1, hj.1]
  rfl

theorem step2_caps {s : List Char} {c : Caps} {s2 : List Char}
    (h : (c, s2) ∈ mruns item_step2 s) :
    ∃ g1 g2 g3 g4 g5 g6,
      c = [(1, g1), (2, g2), (3, g3), (4, g4), (5, g5), (6, g6)] ∧
      g5.length = 2 ∧ g5.all Char.isUpper = true ∧
      1 ≤ g6.length ∧ g6.all isNonSpace = true := by
  unfold item_step2 at h
  rw [mem_mruns_seq] at h
  obtain ⟨c1, s1, cr1, h1, h, hc⟩ := h
  rw [mem_mruns_lit] at h1
  rw [mem_mruns_seq] at h
  obtain ⟨c2, s2a, cr2, h2, h, hc1⟩ := h
  rw [mem_mruns_plusG] at h2
  rw [mem_mruns_seq] at h
  obtain ⟨c3, s3, cr3, h3, h, hc2⟩ := h
  obtain ⟨g1, hg1⟩ := grp_seqPS_inv h3
  rw [mem_mruns_seq] at h
  obtain ⟨c4, s4, cr4, h4, h, hc3⟩ := h
  rw [mem_mruns_plusG] at h4
  rw [mem_mruns_seq] at h
  obtain ⟨c5, s5, cr5, h5, h, hc4⟩ := h
  obtain ⟨g2, hg2, _⟩ := grp_plusG_inv h5
  rw [mem_mruns_seq] at h
  obtain ⟨c6, s6, cr6, h6, h, hc5⟩ := h
  rw [mem_mruns_plusG] at h6
  rw [mem_mruns_seq] at h
  obtain ⟨c7, s7, cr7, h7, h, hc6⟩ := h
  obtain ⟨g3, hg3, _⟩ := grp_plusG_inv h7
  rw [mem_mruns_seq] at h
  obtain ⟨c8, s8, cr8, h8, h, hc7⟩ := h
  rw [mem_mruns_plusG] at h8
  rw [mem_mruns_seq] at h
  obtain ⟨c9, s9, cr9, h9, h, hc8⟩ := h
  obtain ⟨g4, hg4, _⟩ := grp_plusG_inv h9
  rw [mem_mruns_seq] at h
  obtain ⟨c10, s10, cr10, h10, h, hc9⟩ := h
  rw [mem_mruns_plusG] at h10
  rw [mem_mruns_seq] at h
  obtain ⟨c11, s11, cr11, h11, h, hc10⟩ := h
  obtain ⟨hc11, h5len, h5all, _⟩ := grp_repE_inv h11
  rw [mem_mruns_seq] at h
  obtain ⟨c12, s12, cr12, h12, h, hc11b⟩ := h
  rw [mem_mruns_plusG] at h12
  rw [mem_mruns_seq] at h
  obtain ⟨c13, s13, cr13, h13, h, hc12⟩ := h
  obtain ⟨g6, hg6, h6len, h6all, _⟩ := grp_plusG_inv h13
  rw [mem_mruns_eosP] at h
  refine ⟨g1, g2, g3, g4, _, g6, ?_, h5len, h5all, h6len, h6all⟩
  rw [hc, h1.1, hc1, h2.1, hc2, hg1, hc3, h4.1, hc4, hg2, hc5, h6.1, hc6,
    hg3, hc7, h8.1, hc8, hg4, hc9, h10.1, hc10, hc11, hc11b, h12.1, hc12,
    hg6, h.1]
  rfl

theorem searchPos_mem {r : RE} {s : List Char} {c : Caps}
    (h : searchPos r s = some c) : ∃ s2, (c, s2) ∈ mruns r s := by
  unfold searchPos at h
  cases hh : (mruns r s).head? with
  | none =>
    rw [hh] at h
    exact absurd h (by simp)
  | some cr =>
    rw [hh] at h
    have hc2 : cr.1 = c := by
      have hs : some cr.1 = some c := by
        rw [← h]
        rfl
      exact Option.some_inj.mp hs
    have hm : cr ∈ mruns r s := List.mem_of_mem_head? (by rw [hh]; rfl)
    refine ⟨cr.2, ?_⟩
    rw [← hc2]
    exact hm

theorem reSearch_caps {r : RE} :
    ∀ {s : List Char} {c : Caps}, reSearch r s = some c →
      ∃ s0 s2, (c, s2) ∈ mruns r s0 := by
  intro s
  induction s with
  | nil =>
    intro c h
    rw [reSearch] at h
    obtain ⟨s2, hm⟩ := searchPos_mem h
    exact ⟨[], s2, hm⟩
  | cons a t ih =>
    intro c h
    rw [reSearch] at h
    cases hsp : searchPos r (a :: t) with
    | some cs =>
      rw [hsp] at h
      obtain ⟨s2, hm⟩ := searchPos_mem hsp
      exact ⟨a :: t, s2, Option.some_inj.mp h ▸ hm⟩
    | none =>
      rw [hsp] at h
      exact ih h

theorem goNL_caps {r : RE} :
    ∀ {s : List Char} {c : Caps}, goNL r s = some c →
      ∃ s0 s2, (c, s2) ∈ mruns r s0 := by
  intro s
  induction s with
  | nil =>
    intro c h
    rw [goNL] at h
    exact absurd h (by simp)
  | cons a t ih =>
    intro c h
    rw [goNL] at h
    by_cases ha : a = '\n'
    · rw [if_pos ha] at h
      cases hsp : searchPos r t with
      | some cs =>
        rw [hsp] at h
        obtain ⟨s2, hm⟩ := searchPos_mem hsp
        exact ⟨t, s2, Option.some_inj.mp h ▸ hm⟩
      | none =>
        rw [hsp] at h
        exact ih h
    · rw [if_neg ha] at h
      exact ih h

theorem reSearchNL_caps {r : RE} {s : List Char} {c : Caps}
    (h : reSearchNL r s = some c) : ∃ s0 s2, (c, s2) ∈ mruns r s0 := by
  unfold reSearchNL at h
  cases hsp : searchPos r s with
  | some cs =>
    rw [hsp] at h
    obtain ⟨s2, hm⟩ := searchPos_mem hsp
    exact ⟨s, s2, Option.some_inj.mp h ▸ hm⟩
  | none =>
    rw [hsp] at h
    exact goNL_caps h

/-- C3: an invoice item is emitted from a line only when both stages
match; a Stage-1-only match yields nothing; and every emitted item
carries a 13-digit EAN, a two-letter upper-case country code, and a
nonempty whitespace-free product code. -/
theorem C3_two_stage_matching (line : String) :
    (∀ it, parse_item_line line = some it →
      (reSearchNL item_step1 line.data).isSome = true ∧
      (reSearch item_step2 line.data).isSome = true) ∧
    ((reSearchNL item_step1 line.data).isSome = true →
      reSearch item_step2 line.data = none →
      parse_item_line line = none) ∧
    (∀ it, parse_item_line line = some it →
      (∃ e, it.ean_number = some e ∧ e.length = 13 ∧
        e.data.all Char.isDigit = true) ∧
      (∃ co, it.country = some co ∧ co.length = 2 ∧
        co.data.all Char.isUpper = true) ∧
      (∃ pc, it.product_code = some pc ∧ 1 ≤ pc.length ∧
        pc.data.all isNonSpace = true)) := by
  refine ⟨?_, ?_, ?_⟩
  · intro it h
    unfold parse_item_line at h
    cases h1 : reSearchNL item_step1 line.data with
    | none =>
      rw [h1] at h
      exact absurd h (by simp)
    | some c1 =>
      rw [h1] at h
      cases h2 : reSearch item_step2 line.data with
      | none =>
        rw [h2] at h
        exact absurd h (by simp)
      | some c2 =>
        exact ⟨rfl, rfl⟩
  · intro h1 h2
    unfold parse_item_line
    obtain ⟨c1, hc1⟩ := Option.isSome_iff_exists.mp h1
    rw [hc1, h2]
  · intro it h
    unfold parse_item_line at h
    cases h1 : reSearchNL item_step1 line.data with
    | none =>
      rw [h1] at h
      exact absurd h (by simp)
    | some c1 =>
      rw [h1] at h
      cases h2 : reSearch item_step2 line.data with
      | none =>
        rw [h2] at h
        exact absurd h (by simp)
      | some c2 =>
        rw [h2] at h
        obtain ⟨s0, s2, hm1⟩ := reSearchNL_caps h1
        obtain ⟨e, d, w, hcc1, hel, hea⟩ := step1_caps hm1
        obtain ⟨t0, t2, hm2⟩ := reSearch_caps h2
        obtain ⟨g1, g2, g3, g4, g5, g6, hcc2, h5l, h5a, h6l, h6a⟩ :=
          step2_caps hm2
        subst hcc1 hcc2
        obtain rfl := Option.some_inj.mp h
        exact ⟨⟨String.mk e, rfl, hel, hea⟩,
          ⟨String.mk g5, rfl, h5l, h5a⟩,
          ⟨String.mk g6, rfl, h6l, h6a⟩⟩

/-- Witness for C3: the example line parses, and the theorem yields its
13-digit EAN. -/
theorem C3_two_stage_matching_witness :
    ∃ it, parse_item_line lineA = some it ∧
      (∃ e, it.ean_number = some e ∧ e.length = 13 ∧
        e.data.all Char.isDigit = true) := by
  have hp : parse_item_line lineA
      = some
        { ean_number := some "1234567890123", description := some "A",
          quantity := some "1", unit_price := some "1",
          total_price_usd := some "1", country := some "KR",
          product_code := some "P" } := by decide
  exact ⟨_, hp, ((C3_two_stage_matching lineA).2.2 _ hp).1⟩

end BLT
